import Mathlib

/-!
Verification of the quota-aware fetch/cache/filter/sync pipeline of
keif/playlist-from-subs, shallowly embedded from the Python sources:

- src/yt_sub_playlist/core/youtube_client.py   (YouTubeClient)
- src/yt_sub_playlist/core/playlist_manager.py (PlaylistManager)
- src/yt_sub_playlist/core/video_filtering.py  (VideoFilter)
- src/yt_sub_playlist/config/env_loader.py     (VideoCache)

Remote calls are modelled by oracles: a function or list supplying the
outcome the YouTube Data API would return for each call, so that the
client's control flow (which calls are issued, in which order, and how the
sticky quota_exceeded flag evolves) is captured exactly.  Instants are
modelled as integers (epoch seconds); Python compares datetime objects and
fixed-format ISO-8601 strings, both of which order exactly like the
instants they denote.
-/

namespace PlaylistFromSubs

/-- Outcome of one playlistItems.insert call, as discriminated by
YouTubeClient.add_video_to_playlist: HTTP success, a 409 conflict
(duplicate, treated as success), a 403 quotaExceeded error (sets the
sticky flag), or any other error. -/
inductive CallResult where
  | success
  | conflict409
  | quotaExceeded
  | otherError
deriving DecidableEq, Repr

/-- Whether add_video_to_playlist reports True for the given HTTP outcome:
success and 409-conflict count as added, quota and other errors do not
(youtube_client.py lines 671-713). -/
def insertResultAdded : CallResult → Bool
  | .success => true
  | .conflict409 => true
  | .quotaExceeded => false
  | .otherError => false

/-- Whether the outcome sets the client's quota_exceeded flag. -/
def insertResultQuota : CallResult → Bool
  | .quotaExceeded => true
  | _ => false

/-- Result of the insert loop of YouTubeClient.add_videos_to_playlist
(lines 763-770): the video ids for which an insert call was actually
issued, the per-video results recorded, and the final quota_exceeded
flag. -/
structure InsertOut where
  issued : List String
  results : List (String × Bool)
  flag : Bool
deriving Repr

/-- Insert loop of YouTubeClient.add_videos_to_playlist (lines 763-770):
for each pending video id, first check self.quota_exceeded and break if
set, otherwise issue add_video_to_playlist and record its result.  The
oracle gives the HTTP outcome of the insert call for each video id. -/
def insertLoop (o : String → CallResult) : Bool → List String → InsertOut
  | flag, [] => ⟨[], [], flag⟩
  | true, _ :: _ => ⟨[], [], true⟩
  | false, v :: vs =>
    let r := o v
    let rest := insertLoop o (insertResultQuota r) vs
    ⟨v :: rest.issued, (v, insertResultAdded r) :: rest.results, rest.flag⟩

/-- Outcome of one videos.list batch call as produced by
YouTubeClient._get_videos_details_batch: the details map on success
(retry-on-transient-error happens inside the batch call and is absorbed
into the outcome), an empty result after a quotaExceeded error (which
sets the sticky flag), or an empty result after the retry budget is
spent on other errors. -/
inductive BatchResult where
  | ok (details : List (String × String × String))
  | quotaErr
  | failed
deriving DecidableEq, Repr

/-- Whether the batch outcome sets the client's quota_exceeded flag. -/
def batchResultQuota : BatchResult → Bool
  | .quotaErr => true
  | _ => false

/-- Details returned by _get_videos_details_batch for the outcome:
empty on quota or failure. -/
def batchResultDetails : BatchResult → List (String × String × String)
  | .ok d => d
  | .quotaErr => []
  | .failed => []

/-- Result of the batch loop of YouTubeClient._get_videos_details
(lines 565-583): the batches for which a videos.list call was issued,
the accumulated details, and the final quota_exceeded flag. -/
structure DetailOut where
  callsMade : List (List String)
  details : List (String × String × String)
  flag : Bool
deriving Repr

/-- Batch loop of YouTubeClient._get_videos_details (lines 565-583):
for each batch, first check self.quota_exceeded and break if set,
otherwise call _get_videos_details_batch and merge its result.  Each
list element pairs a batch with the oracle outcome of its call. -/
def detailsLoop : Bool → List (List String × BatchResult) → DetailOut
  | flag, [] => ⟨[], [], flag⟩
  | true, _ :: _ => ⟨[], [], true⟩
  | false, (b, r) :: rest =>
    let out := detailsLoop (batchResultQuota r) rest
    ⟨b :: out.callsMade, batchResultDetails r ++ out.details, out.flag⟩

/-- De-duplication preserving first-seen order, embedding
list(dict.fromkeys(video_ids)) from _get_videos_details line 553. -/
def dedupFirst : List String → List String :=
  go []
where
  /-- Worker carrying the set of ids already seen. -/
  go (seen : List String) : List String → List String
    | [] => []
    | x :: xs => if x ∈ seen then go seen xs else x :: go (x :: seen) xs

/-- Slicing unique_video_ids into consecutive batches of at most 50,
embedding the stride-50 slices of _get_videos_details lines 559-571. -/
def chunks50 : List String → List (List String)
  | [] => []
  | x :: xs => (x :: xs).take 50 :: chunks50 ((x :: xs).drop 50)
termination_by l => l.length
decreasing_by
  simp only [List.length_drop, List.length_cons]
  omega

/-- YouTubeClient._get_videos_details (lines 536-596): early-return on an
empty input, de-duplicate preserving order, slice into batches of at most
50, then run the quota-checking batch loop.  The flag argument is the
client's quota_exceeded attribute on entry; the oracle list gives the
outcome of each batch call in order. -/
def getVideosDetails (flag : Bool) (ids : List String)
    (oracle : List BatchResult) : DetailOut :=
  if ids = [] then ⟨[], [], flag⟩
  else detailsLoop flag ((chunks50 (dedupFirst ids)).zip oracle)

/-- Result of YouTubeClient.add_videos_to_playlist: the insert calls
issued, the results dict in insertion order, and the final
quota_exceeded flag. -/
structure AddVideosOut where
  issued : List String
  results : List (String × Bool)
  flag : Bool
deriving Repr

/-- YouTubeClient.add_videos_to_playlist (lines 715-788): early-return on
an empty input, split the candidates against the set of video ids already
in the playlist (the result of fetch_existing_playlist_items, passed here
as the existing argument), report every already-present id as True, and
run the quota-checking insert loop over the remaining new ids only. -/
def addVideosToPlaylist (o : String → CallResult) (flag : Bool)
    (existing : List String) (ids : List String) : AddVideosOut :=
  if ids = [] then ⟨[], [], flag⟩
  else
    let newIds := ids.filter (fun v => !existing.contains v)
    let skipped := ids.filter (fun v => existing.contains v)
    if newIds = [] then ⟨[], ids.map (fun v => (v, true)), flag⟩
    else
      let out := insertLoop o flag newIds
      ⟨out.issued, skipped.map (fun v => (v, true)) ++ out.results, out.flag⟩

/-- On-disk playlist-membership cache file, as read by
YouTubeClient.fetch_existing_playlist_items: the filesystem modification
time (os.path.getmtime), and the JSON content fields video_ids and
fetched_at. -/
structure PlaylistCacheFile where
  mtime : Int
  video_ids : List String
  fetched_at : Int
deriving DecidableEq, Repr

/-- Result of fetch_existing_playlist_items: the returned set of video
ids, the number of playlistItems.list pages requested from the remote
API, and the cache file state afterwards. -/
structure FetchExistingOut where
  result : List String
  remoteCalls : Nat
  newCache : Option PlaylistCacheFile
deriving DecidableEq, Repr

/-- YouTubeClient.fetch_existing_playlist_items (lines 92-185): if the
cache file exists and its age, measured from the file's modification
time, is under 12 hours, return the cached video ids with no remote
call; otherwise paginate the remote playlistItems endpoint (the pages
argument lists the successive pages the API would return; the loop stops
after the last page, capped at 101 pages by the page_count > 100 safety
check) and overwrite the cache file with the fresh snapshot. -/
def fetchExistingPlaylistItems (now : Int) (cache : Option PlaylistCacheFile)
    (pages : List (List String)) : FetchExistingOut :=
  let fetched := (pages.take 101).flatten
  let fresh : FetchExistingOut :=
    ⟨fetched, (pages.take 101).length, some ⟨now, fetched, now⟩⟩
  match cache with
  | some c => if now - c.mtime < 12 * 3600 then ⟨c.video_ids, 0, some c⟩ else fresh
  | none => fresh

/-! ## VideoCache (config/env_loader.py)

Two views of VideoCache._load_cache are given.  The raw view works on
parsed JSON values and captures the exception behaviour of the dict
comprehension at lines 281-287 together with the except clause at line
294 (which catches JSONDecodeError, KeyError and TypeError but not
AttributeError).  The typed view works on well-shaped cache maps with
integer instants and captures the garbage-collection arithmetic; Python
compares ISO-8601 strings produced by datetime.isoformat, whose
lexicographic order coincides with chronological order. -/

/-- JSON values, as returned by json.load. -/
inductive Json where
  | null
  | bool (b : Bool)
  | num (n : Int)
  | str (s : String)
  | arr (xs : List Json)
  | obj (fields : List (String × Json))
deriving Repr

/-- Python exceptions distinguished by VideoCache._load_cache: the except
clause at line 294 catches keyError and typeError (and the decode error,
modelled separately), while attrError propagates out of the
constructor. -/
inductive PyExn where
  | attrError
  | typeError
  | keyError
deriving DecidableEq, Repr

/-- Evaluation of data.get, with the added_at key and default empty
string, from _load_cache line 286: valid on a dict, raises
AttributeError on any other value. -/
def pyGetAddedAt : Json → Except PyExn Json
  | .obj fields => .ok (((fields.lookup "added_at").getD (.str "")))
  | _ => .error .attrError

/-- Evaluation of the Python comparison value > cutoff where cutoff is a
string (_load_cache line 286): string-to-string comparison succeeds,
comparing any other type against a string raises TypeError. -/
def pyGtStr (v : Json) (cutoff : String) : Except PyExn Bool :=
  match v with
  | .str s => .ok (decide (cutoff < s))
  | _ => .error .typeError

/-- Dict comprehension of _load_cache lines 283-287: keep the entries
whose added_at compares greater than the cutoff string, propagating the
first exception raised while evaluating an entry. -/
def gcEntries (cutoff : String) : List (String × Json) → Except PyExn (List (String × Json))
  | [] => .ok []
  | (k, v) :: rest => do
    let a ← pyGetAddedAt v
    let keep ← pyGtStr a cutoff
    let r ← gcEntries cutoff rest
    return if keep then (k, v) :: r else r

/-- VideoCache._load_cache (lines 271-297) on the parsed file content.
The file argument is none when the cache file does not exist, some none
when it exists but json.load raises JSONDecodeError, and some (some j)
when it parses to j.  The result is the loaded cache together with the
flag recording whether _save_cache was invoked (line 291), or the
uncaught exception: calling .items() on a non-dict raises AttributeError,
which the except clause at line 294 does not catch. -/
def loadCacheRaw (cutoff : String) (file : Option (Option Json)) :
    Except PyExn (List (String × Json) × Bool) :=
  match file with
  | none => .ok ([], false)
  | some none => .ok ([], false)
  | some (some (.obj fields)) =>
    match gcEntries cutoff fields with
    | .ok kept => .ok (kept, decide (kept.length ≠ fields.length))
    | .error .attrError => .error .attrError
    | .error _ => .ok ([], false)
  | some (some _) => .error .attrError

/-- Well-shaped processed-video cache entry: map value of
processed_videos.json, with added_at as an instant. -/
structure CacheEntry where
  added_at : Int
  title : String
  channel : String
deriving DecidableEq, Repr

/-- Typed view of VideoCache._load_cache (lines 271-297) on a
well-shaped persisted map: drop the entries whose added_at is not after
the cutoff now - ttl_days days, and record whether the trimmed map was
immediately rewritten to disk (which happens exactly when the length
shrank, line 290). -/
def loadCacheTyped (now : Int) (ttlDays : Int) (raw : List (String × CacheEntry)) :
    List (String × CacheEntry) × Bool :=
  let cutoff := now - ttlDays * 86400
  let kept := raw.filter (fun p => decide (cutoff < p.2.added_at))
  (kept, decide (kept.length ≠ raw.length))

/-- VideoCache.is_processed (lines 308-310): membership of the video id
in the in-memory map. -/
def isProcessed (cache : List (String × CacheEntry)) (id : String) : Bool :=
  cache.any (fun p => p.1 = id)

/-- Dict assignment self._cache[video_id] = entry: replace the value at
the key if present, else append. -/
def setEntry : List (String × CacheEntry) → String → CacheEntry → List (String × CacheEntry)
  | [], k, e => [(k, e)]
  | (k', e') :: rest, k, e =>
    if k' = k then (k, e) :: rest else (k', e') :: setEntry rest k e

/-- VideoCache.mark_processed (lines 312-319): store the entry with
added_at = now and persist immediately; _save_cache writes the in-memory
map verbatim, so the returned map is also the on-disk content. -/
def markProcessed (cache : List (String × CacheEntry)) (id title channel : String)
    (now : Int) : List (String × CacheEntry) :=
  setEntry cache id ⟨now, title, channel⟩

/-! ## VideoFilter (core/video_filtering.py) -/

/-- Value of the published_at field of a video dict after the parse
attempt of VideoFilter._check_date_filter lines 246-260: the field is
absent or falsy, the parse raised ValueError, or it parsed to an
instant. -/
inductive PubDate where
  | missing
  | unparsable
  | parsed (t : Int)
deriving DecidableEq, Repr

/-- Configured date string (date_filter_start or date_filter_end) after
the strptime attempt of _check_date_filter lines 280-296: absent or
empty (falsy), unparsable, or parsed to the midnight instant of that
day. -/
inductive DateStr where
  | missing
  | unparsable
  | parsed (t : Int)
deriving DecidableEq, Repr

/-- Video dict as consumed by VideoFilter: fields read by plain indexing
are plain, fields read through dict.get keep their optionality.
description models video.get with default empty string. -/
structure Video where
  video_id : String
  title : String
  channel_id : String
  channel_title : String
  description : String
  published_at : PubDate
  duration_seconds : Int
  live_broadcast : Option String
deriving DecidableEq, Repr

/-- Filter configuration dict: fields the code reads by plain indexing
(min_duration_seconds, skip_live_content) are plain, fields read through
config.get keep their optionality with the code's defaults applied at
the use sites. -/
structure FilterConfig where
  min_duration_seconds : Int
  max_duration_seconds : Option Int
  channel_filter_mode : Option String
  channel_allowlist : Option (List String)
  channel_blocklist : Option (List String)
  date_filter_mode : Option String
  lookback_hours : Option Int
  date_filter_days : Option Int
  date_filter_start : DateStr
  date_filter_end : DateStr
  keyword_filter_mode : Option String
  keyword_search_description : Option Bool
  keyword_case_sensitive : Option Bool
  keyword_include : Option (List String)
  keyword_exclude : Option (List String)
  keyword_match_type : Option String
  skip_live_content : Bool
deriving Repr

/-- Python truthiness of an optional set of channel ids: None and the
empty set are falsy. -/
def setTruthy : Option (List String) → Bool
  | some l => !l.isEmpty
  | none => false

/-- Substring test on character lists, embedding the Python membership
test for keyword in search_text. -/
def charsContain (pat : List Char) : List Char → Bool
  | [] => pat.isEmpty
  | c :: rest => pat.isPrefixOf (c :: rest) || charsContain pat rest

/-- Python substring membership keyword in text. -/
def strContains (text pat : String) : Bool :=
  charsContain pat.data text.data

/-- VideoFilter._check_date_filter (lines 233-299): a missing or
unparsable published_at passes; otherwise dispatch on
date_filter_mode.  Mode lookback accepts instants at or after
now - lookback_hours; mode days floors the cutoff to the start of its
day; mode date_range treats the end date as inclusive end-of-day
(23:59:59) and passes whenever either bound is missing or unparsable;
an unknown mode passes. -/
def checkDateFilter (cfg : FilterConfig) (now : Int) (pub : PubDate) : Bool :=
  match pub with
  | .missing => true
  | .unparsable => true
  | .parsed t =>
    let mode := cfg.date_filter_mode.getD "lookback"
    if mode = "lookback" then
      decide (now - cfg.lookback_hours.getD 24 * 3600 ≤ t)
    else if mode = "days" then
      let c := now - cfg.date_filter_days.getD 7 * 86400
      decide (c - c % 86400 ≤ t)
    else if mode = "date_range" then
      match cfg.date_filter_start, cfg.date_filter_end with
      | .missing, _ => true
      | _, .missing => true
      | .unparsable, _ => true
      | _, .unparsable => true
      | .parsed s, .parsed e => decide (s ≤ t ∧ t ≤ e + 86399)
    else true

/-- Per-video rejection reasons, one per counter that
VideoFilter._should_include_video can increment. -/
inductive RejectReason where
  | alreadyProcessed
  | tooShort
  | tooLong
  | notInAllowlist
  | inBlocklist
  | outsideDateRange
  | filteredInclude
  | filteredExclude
  | liveContent
deriving DecidableEq, Repr

/-- VideoFilter._check_keyword_filter (lines 301-365): build the search
text (title, plus description when configured and nonempty), case-fold
unless configured sensitive, then apply the include condition (any or
all matching, only when the mode covers include and the list is
nonempty) followed by the exclude condition. -/
def checkKeywordFilter (cfg : FilterConfig) (v : Video) : Option RejectReason :=
  let mode := cfg.keyword_filter_mode.getD "none"
  if mode = "none" then none
  else
    let searchBase :=
      if cfg.keyword_search_description.getD false && v.description ≠ "" then
        v.title ++ " " ++ v.description
      else v.title
    let caseSensitive := cfg.keyword_case_sensitive.getD false
    let st := if caseSensitive then searchBase else searchBase.toLower
    let includeList := cfg.keyword_include.getD []
    let excludeList := cfg.keyword_exclude.getD []
    let matchType := cfg.keyword_match_type.getD "any"
    let incKws := includeList.map (fun k => if caseSensitive then k else k.toLower)
    let excKws := excludeList.map (fun k => if caseSensitive then k else k.toLower)
    let incFail :=
      (mode = "include" || mode = "both") && !includeList.isEmpty &&
        (if matchType = "any" then !incKws.any (fun k => strContains st k)
         else !incKws.all (fun k => strContains st k))
    if incFail then some .filteredInclude
    else
      let excHit :=
        (mode = "exclude" || mode = "both") && !excludeList.isEmpty &&
          excKws.any (fun k => strContains st k)
      if excHit then some .filteredExclude else none

/-- VideoFilter._should_include_video (lines 145-231): the rejection
reason of the first failing check, in the code's order (already
processed, too short, too long, channel allow/block, date, keyword,
live), or none when the video passes all filters.  The cache argument is
the set of processed video ids consulted through
VideoCache.is_processed; filterMode, allowlist, blocklist, minDur and
maxDur are the arguments filter_videos resolves before the loop. -/
def shouldIncludeVideo (cfg : FilterConfig) (cache : List String) (now : Int)
    (filterMode : String) (allowlist blocklist : Option (List String))
    (minDur : Int) (maxDur : Option Int) (v : Video) : Option RejectReason :=
  if cache.contains v.video_id then some .alreadyProcessed
  else if v.duration_seconds < minDur then some .tooShort
  else if (match maxDur with
           | some m => m ≠ 0 && v.duration_seconds > m
           | none => false) then some .tooLong
  else if filterMode = "allowlist" && setTruthy allowlist
          && !(allowlist.getD []).contains v.channel_id then some .notInAllowlist
  else if filterMode = "blocklist" && setTruthy blocklist
          && (blocklist.getD []).contains v.channel_id then some .inBlocklist
  else if !checkDateFilter cfg now v.published_at then some .outsideDateRange
  else
    match checkKeywordFilter cfg v with
    | some r => some r
    | none =>
      if cfg.skip_live_content && (v.live_broadcast.getD "none") ≠ "none" then
        some .liveContent
      else none

/-- Counters dict built by VideoFilter._init_stats (lines 80-95). -/
structure FilterStats where
  total : Nat
  too_short : Nat
  too_long : Nat
  outside_date_range : Nat
  keyword_filtered_include : Nat
  keyword_filtered_exclude : Nat
  not_whitelisted : Nat
  not_in_allowlist : Nat
  in_blocklist : Nat
  already_processed : Nat
  live_content_skipped : Nat
  passed_filters : Nat
deriving DecidableEq, Repr

/-- All-zero counters, as produced by _init_stats. -/
def initStats : FilterStats :=
  ⟨0, 0, 0, 0, 0, 0, 0, 0, 0, 0, 0, 0⟩

/-- Counter increment performed when a video is rejected for the given
reason; a not-in-allowlist rejection also increments the legacy
not_whitelisted counter (lines 195-196). -/
def bumpReason (s : FilterStats) : RejectReason → FilterStats
  | .alreadyProcessed => { s with already_processed := s.already_processed + 1 }
  | .tooShort => { s with too_short := s.too_short + 1 }
  | .tooLong => { s with too_long := s.too_long + 1 }
  | .notInAllowlist =>
    { s with not_in_allowlist := s.not_in_allowlist + 1,
             not_whitelisted := s.not_whitelisted + 1 }
  | .inBlocklist => { s with in_blocklist := s.in_blocklist + 1 }
  | .outsideDateRange => { s with outside_date_range := s.outside_date_range + 1 }
  | .filteredInclude =>
    { s with keyword_filtered_include := s.keyword_filtered_include + 1 }
  | .filteredExclude =>
    { s with keyword_filtered_exclude := s.keyword_filtered_exclude + 1 }
  | .liveContent => { s with live_content_skipped := s.live_content_skipped + 1 }

/-- Main loop of VideoFilter.filter_videos (lines 129-140): evaluate
each video in order, bump the counter of the first failing check or the
passed_filters counter, and collect the passing videos in input
order. -/
def filterLoop (f : Video → Option RejectReason) :
    List Video → FilterStats → List Video × FilterStats
  | [], s => ([], s)
  | v :: vs, s =>
    match f v with
    | none =>
      let out := filterLoop f vs { s with passed_filters := s.passed_filters + 1 }
      (v :: out.1, out.2)
    | some r => filterLoop f vs (bumpReason s r)

/-- Channel-filter resolution of VideoFilter.filter_videos lines
119-127: the effective mode and allowlist, falling back to the legacy
channel_whitelist parameter in allowlist mode when the configured mode
is none and the parameter is truthy. -/
def resolveChannelFilter (cfg : FilterConfig) (wl : Option (List String)) :
    String × Option (List String) :=
  let mode0 := cfg.channel_filter_mode.getD "none"
  if mode0 = "none" && setTruthy wl then ("allowlist", wl)
  else (mode0, cfg.channel_allowlist)

/-- Per-video decision applied by the loop of filter_videos, with the
channel filter resolved. -/
def filterPred (cfg : FilterConfig) (cache : List String) (now : Int)
    (wl : Option (List String)) : Video → Option RejectReason :=
  shouldIncludeVideo cfg cache now (resolveChannelFilter cfg wl).1
    (resolveChannelFilter cfg wl).2 cfg.channel_blocklist
    cfg.min_duration_seconds cfg.max_duration_seconds

/-- VideoFilter.filter_videos (lines 97-143): reset the counters with
total set to the input length, resolve the channel-filter mode, then run
the filter loop. -/
def filterVideos (cfg : FilterConfig) (cache : List String) (now : Int)
    (videos : List Video) (channelWhitelist : Option (List String)) :
    List Video × FilterStats :=
  filterLoop (filterPred cfg cache now channelWhitelist) videos
    { initStats with total := videos.length }

/-! ## PlaylistManager (core/playlist_manager.py) -/

/-- PlaylistManager.add_videos_to_playlist (lines 92-143): on an empty
input return immediately; in dry-run mode report every video with
added = True without touching the client; otherwise delegate to
YouTubeClient.add_videos_to_playlist and read each video's outcome from
the results dict with default False.  Returns the detailed results
together with the list of insert calls the client issued (empty means no
remote mutation).  The per-video mark_processed cache update on success
is modelled separately by markProcessed. -/
def managerAddVideosToPlaylist (o : String → CallResult) (flag : Bool)
    (existing : List String) (dryRun : Bool) (videos : List Video) :
    List (Video × Bool) × List String :=
  if videos = [] then ([], [])
  else if dryRun then (videos.map (fun v => (v, true)), [])
  else
    let out := addVideosToPlaylist o flag existing (videos.map (fun v => v.video_id))
    (videos.map (fun v => (v, (out.results.lookup v.video_id).getD false)), out.issued)

/-! ## Helper lemmas -/

/-- Filtering strictly shrinks a list exactly when some element fails
the predicate. -/
theorem length_filter_lt_iff {α : Type} (p : α → Bool) (l : List α) :
    (l.filter p).length ≠ l.length ↔ ∃ x ∈ l, p x = false := by
  induction l with
  | nil => simp
  | cons a t ih =>
    cases h : p a with
    | true =>
      have hcons : List.filter p (a :: t) = a :: List.filter p t := by
        simp [List.filter_cons, h]
      rw [hcons, List.length_cons, List.length_cons]
      constructor
      · intro hne
        rcases ih.mp (by omega) with ⟨x, hx, hpx⟩
        exact ⟨x, List.mem_cons_of_mem a hx, hpx⟩
      · rintro ⟨x, hx, hpx⟩
        rcases List.mem_cons.mp hx with rfl | hx
        · rw [h] at hpx; cases hpx
        · have := ih.mpr ⟨x, hx, hpx⟩
          omega
    | false =>
      have hcons : List.filter p (a :: t) = List.filter p t := by
        simp [List.filter_cons, h]
      rw [hcons, List.length_cons]
      have hle := List.length_filter_le p t
      constructor
      · intro _
        exact ⟨a, List.mem_cons_self a t, h⟩
      · intro _
        omega

/-- The entry written by setEntry is a member of the result. -/
theorem setEntry_mem (cache : List (String × CacheEntry)) (k : String) (e : CacheEntry) :
    (k, e) ∈ setEntry cache k e := by
  induction cache with
  | nil => simp [setEntry]
  | cons p rest ih =>
    by_cases h : p.1 = k
    · simp [setEntry, h]
    · simp only [setEntry, h, if_neg]
      exact List.mem_cons_of_mem p ih

/-! ## C4: playlist-membership snapshot TTL -/

/-- C4 counterexample.  The claim says validity is judged by the stored
fetched_at instant: a snapshot 13 hours old must be refetched.  The code
(fetch_existing_playlist_items line 113) measures age from the file's
modification time instead: a cache file whose content records
fetched_at 13 hours in the past but whose mtime is current is returned
as-is, with zero remote calls and the stale set as the result. -/
theorem fetchExistingPlaylistItems_stale_fetched_at_counterexample :
    (12 * 3600 ≤ 1000000 - (1000000 - 13 * 3600 : Int)) ∧
    (fetchExistingPlaylistItems 1000000
      (some ⟨1000000, ["v"], 1000000 - 13 * 3600⟩) [["w"]]).remoteCalls = 0 ∧
    (fetchExistingPlaylistItems 1000000
      (some ⟨1000000, ["v"], 1000000 - 13 * 3600⟩) [["w"]]).result = ["v"] := by
  refine ⟨by norm_num, ?_, ?_⟩ <;> rfl

/-- C4 (amended): the playlist-membership snapshot is considered valid
only while now - mtime < 12 hours, mtime being the cache file's
modification time (equal to the time the snapshot was written in any
run of this program): a younger snapshot is returned without any remote
call and the cache file is kept; otherwise, and when no cache file
exists, a full paginated refetch (capped at 101 pages) is issued and the
cache file is overwritten with the fresh snapshot. -/
theorem fetchExistingPlaylistItems_mtime_ttl (now : Int) (c : PlaylistCacheFile)
    (pages : List (List String)) :
    (now - c.mtime < 12 * 3600 →
      fetchExistingPlaylistItems now (some c) pages = ⟨c.video_ids, 0, some c⟩) ∧
    (12 * 3600 ≤ now - c.mtime →
      fetchExistingPlaylistItems now (some c) pages =
        ⟨(pages.take 101).flatten, (pages.take 101).length,
         some ⟨now, (pages.take 101).flatten, now⟩⟩) ∧
    (fetchExistingPlaylistItems now none pages =
      ⟨(pages.take 101).flatten, (pages.take 101).length,
       some ⟨now, (pages.take 101).flatten, now⟩⟩) := by
  refine ⟨fun h => ?_, fun h => ?_, rfl⟩
  · simp only [fetchExistingPlaylistItems]
    rw [if_pos h]
  · simp only [fetchExistingPlaylistItems]
    rw [if_neg (not_lt.mpr h)]

/-- C4 witness: a snapshot written one hour ago is returned without any
remote call. -/
theorem fetchExistingPlaylistItems_mtime_ttl_witness :
    fetchExistingPlaylistItems 3600 (some ⟨0, ["a"], 0⟩) [["b"]] =
      ⟨["a"], 0, some ⟨0, ["a"], 0⟩⟩ :=
  (fetchExistingPlaylistItems_mtime_ttl 3600 ⟨0, ["a"], 0⟩ [["b"]]).1 (by norm_num)

/-! ## C5: processed-cache TTL garbage collection -/

/-- C5: on load, an entry whose added_at is ttl_days + 1 days in the
past is absent from the garbage-collected map, an entry whose added_at
is ttl_days - 1 days in the past is kept, and the trimmed map is
immediately rewritten to disk exactly when at least one entry was
purged. -/
theorem loadCacheTyped_gc (now ttl : Int) (raw : List (String × CacheEntry)) :
    (∀ id e, (id, e) ∈ raw → e.added_at = now - (ttl + 1) * 86400 →
      (id, e) ∉ (loadCacheTyped now ttl raw).1) ∧
    (∀ id e, (id, e) ∈ raw → e.added_at = now - (ttl - 1) * 86400 →
      (id, e) ∈ (loadCacheTyped now ttl raw).1) ∧
    ((loadCacheTyped now ttl raw).2 = true ↔
      ∃ p ∈ raw, p.2.added_at ≤ now - ttl * 86400) := by
  refine ⟨?_, ?_, ?_⟩
  · intro id e _ he hmem
    have := (List.mem_filter.mp hmem).2
    simp only [decide_eq_true_eq] at this
    rw [he] at this
    nlinarith
  · intro id e hmem he
    refine List.mem_filter.mpr ⟨hmem, ?_⟩
    simp only [decide_eq_true_eq]
    rw [he]
    nlinarith
  · unfold loadCacheTyped
    simp only [decide_eq_true_eq]
    rw [length_filter_lt_iff]
    constructor
    · rintro ⟨p, hp, hpred⟩
      refine ⟨p, hp, ?_⟩
      simp only [decide_eq_false_iff_not, not_lt] at hpred
      exact hpred
    · rintro ⟨p, hp, hle⟩
      refine ⟨p, hp, ?_⟩
      simp only [decide_eq_false_iff_not, not_lt]
      exact hle

/-- C5 witness: with ttl 30 days and now at 31 days past the epoch, a
31-day-old entry is purged, a 29-day-old entry is kept, and the map is
rewritten. -/
theorem loadCacheTyped_gc_witness :
    ("old", (⟨0, "", ""⟩ : CacheEntry)) ∉
      (loadCacheTyped 2678400 30 [("old", ⟨0, "", ""⟩), ("new", ⟨172800, "", ""⟩)]).1 ∧
    ("new", (⟨172800, "", ""⟩ : CacheEntry)) ∈
      (loadCacheTyped 2678400 30 [("old", ⟨0, "", ""⟩), ("new", ⟨172800, "", ""⟩)]).1 ∧
    (loadCacheTyped 2678400 30 [("old", ⟨0, "", ""⟩), ("new", ⟨172800, "", ""⟩)]).2 = true := by
  have h := loadCacheTyped_gc 2678400 30 [("old", ⟨0, "", ""⟩), ("new", ⟨172800, "", ""⟩)]
  refine ⟨h.1 "old" ⟨0, "", ""⟩ (by simp) (by norm_num), ?_, ?_⟩
  · exact h.2.1 "new" ⟨172800, "", ""⟩ (by simp) (by norm_num)
  · exact h.2.2.mpr ⟨("old", ⟨0, "", ""⟩), by simp, by norm_num⟩

/-! ## C6: dry-run performs no remote mutation -/

/-- C6: in dry-run mode PlaylistManager.add_videos_to_playlist issues no
playlist-item insert call and reports every candidate video with
added = True. -/
theorem managerAddVideosToPlaylist_dry_run (o : String → CallResult) (flag : Bool)
    (existing : List String) (videos : List Video) :
    managerAddVideosToPlaylist o flag existing true videos =
      (videos.map (fun v => (v, true)), []) := by
  cases videos <;> simp [managerAddVideosToPlaylist]

/-! ## C7: malformed processed-videos file -/

/-- C7 evaluation at the failing input: a cache file that parses to a
JSON array escapes the except clause of VideoCache._load_cache (line
294, which catches JSONDecodeError, KeyError and TypeError only) because
raw_cache.items() raises AttributeError, so the constructor propagates a
fatal error instead of degrading to an empty cache; unparsable JSON, by
contrast, is caught and yields the empty cache as the claim states. -/
theorem loadCacheRaw_wrong_shape_raises :
    loadCacheRaw "2025-09-12T00:00:00" (some (some (.arr []))) = .error .attrError ∧
    loadCacheRaw "2025-09-12T00:00:00" (some none) = .ok ([], false) :=
  ⟨rfl, rfl⟩

/-! ## C8: mark_processed / is_processed round trip -/

/-- C8: marking a video as processed makes is_processed answer true in
the same process, and still after the persisted map is freshly loaded at
a later time nowR, provided the entry is within TTL
(nowR - now < ttl_days days). -/
theorem markProcessed_isProcessed_roundtrip (cache : List (String × CacheEntry))
    (id title channel : String) (now nowR ttl : Int)
    (h : nowR - now < ttl * 86400) :
    isProcessed (markProcessed cache id title channel now) id = true ∧
    isProcessed (loadCacheTyped nowR ttl (markProcessed cache id title channel now)).1 id
      = true := by
  have hmem : (id, (⟨now, title, channel⟩ : CacheEntry)) ∈
      markProcessed cache id title channel now := setEntry_mem cache id _
  constructor
  · exact List.any_eq_true.mpr ⟨(id, ⟨now, title, channel⟩), hmem, by simp⟩
  · refine List.any_eq_true.mpr ⟨(id, ⟨now, title, channel⟩), ?_, by simp⟩
    refine List.mem_filter.mpr ⟨hmem, ?_⟩
    simp only [decide_eq_true_eq]
    omega

/-- C8 witness: an entry marked now and reloaded immediately with a
one-day TTL is still reported processed. -/
theorem markProcessed_isProcessed_roundtrip_witness :
    (0 : Int) - 0 < 1 * 86400 ∧
    isProcessed (markProcessed [] "x" "t" "c" 0) "x" = true ∧
    isProcessed (loadCacheTyped 0 1 (markProcessed [] "x" "t" "c" 0)).1 "x" = true := by
  have h := markProcessed_isProcessed_roundtrip [] "x" "t" "c" 0 0 1 (by norm_num)
  exact ⟨by norm_num, h.1, h.2⟩

/-! ## C9: date filter in lookback mode -/

/-- C9: with the date filter in lookback mode, a video with a parsable
published_at is accepted exactly when it is at or after
now - lookback_hours, and a video whose published_at could not be
parsed passes through fail-open. -/
theorem checkDateFilter_lookback (cfg : FilterConfig) (now : Int)
    (h : cfg.date_filter_mode.getD "lookback" = "lookback") :
    (∀ t : Int, checkDateFilter cfg now (.parsed t) =
      decide (now - cfg.lookback_hours.getD 24 * 3600 ≤ t)) ∧
    checkDateFilter cfg now .unparsable = true := by
  constructor
  · intro t
    simp [checkDateFilter, h]
  · rfl

/-- Concrete filter configuration used by witnesses: lookback mode with
the default 24-hour window. -/
def cfgLookback : FilterConfig :=
  ⟨60, none, none, none, none, some "lookback", none, none, .missing, .missing,
   none, none, none, none, none, none, true⟩

/-- C9 witness: at now = 100000 the 24-hour cutoff is 13600; a video
published exactly at the cutoff is accepted and an unparsable
published_at passes. -/
theorem checkDateFilter_lookback_witness :
    checkDateFilter cfgLookback 100000 (.parsed 13600) = true ∧
    checkDateFilter cfgLookback 100000 .unparsable = true := by
  have h := checkDateFilter_lookback cfgLookback 100000 rfl
  exact ⟨(h.1 13600).trans (by decide), h.2⟩

/-! ## C1: sticky quota sentinel -/

/-- With the quota flag already set, the insert loop issues no call and
the flag stays set. -/
theorem insertLoop_flag_true (o : String → CallResult) (l : List String) :
    insertLoop o true l = ⟨[], [], true⟩ := by
  cases l <;> rfl

/-- With the quota flag already set, the detail-batch loop issues no
call and the flag stays set. -/
theorem detailsLoop_flag_true (entries : List (List String × BatchResult)) :
    detailsLoop true entries = ⟨[], [], true⟩ := by
  cases entries <;> rfl

/-- A quota-signalling insert is the last insert call the loop issues,
and it leaves the flag set. -/
theorem insertLoop_quota_halts (o : String → CallResult) :
    ∀ (l : List String) (i : Nat) (w : String),
      (insertLoop o false l).issued[i]? = some w → o w = .quotaExceeded →
      (insertLoop o false l).issued.length = i + 1 ∧
      (insertLoop o false l).flag = true := by
  intro l
  induction l with
  | nil => intro i w hget _; simp [insertLoop] at hget
  | cons v vs ih =>
    intro i w hget hq
    by_cases hv : o v = .quotaExceeded
    · have hrest : insertLoop o (insertResultQuota (o v)) vs = ⟨[], [], true⟩ := by
        rw [hv]
        exact insertLoop_flag_true o vs
      have hmain : insertLoop o false (v :: vs) =
          ⟨[v], [(v, insertResultAdded (o v))], true⟩ := by
        simp only [insertLoop, hrest]
      rw [hmain] at hget ⊢
      cases i with
      | zero => exact ⟨rfl, rfl⟩
      | succ j => simp at hget
    · have hqf : insertResultQuota (o v) = false := by
        cases hov : o v with
        | quotaExceeded => exact absurd hov hv
        | success => rfl
        | conflict409 => rfl
        | otherError => rfl
      have hmain : insertLoop o false (v :: vs) =
          ⟨v :: (insertLoop o false vs).issued,
           (v, insertResultAdded (o v)) :: (insertLoop o false vs).results,
           (insertLoop o false vs).flag⟩ := by
        simp only [insertLoop, hqf]
      rw [hmain] at hget ⊢
      cases i with
      | zero =>
        simp only [List.getElem?_cons_zero, Option.some.injEq] at hget
        rw [← hget] at hq
        exact absurd hq hv
      | succ j =>
        simp only [List.getElem?_cons_succ] at hget
        obtain ⟨hl, hf⟩ := ih j w hget hq
        exact ⟨by simp [hl], hf⟩

/-- A quota-signalling batch call is the last batch call the detail loop
issues, and it leaves the flag set. -/
theorem detailsLoop_quota_halts :
    ∀ (entries : List (List String × BatchResult)) (i : Nat)
      (b : List String) (r : BatchResult),
      entries[i]? = some (b, r) → r = .quotaErr →
      i < (detailsLoop false entries).callsMade.length →
      (detailsLoop false entries).callsMade.length = i + 1 ∧
      (detailsLoop false entries).flag = true := by
  intro entries
  induction entries with
  | nil => intro i b r hget _ _; simp at hget
  | cons p rest ih =>
    obtain ⟨b0, r0⟩ := p
    intro i b r hget hr hlt
    by_cases hq : r0 = .quotaErr
    · have hrest : detailsLoop (batchResultQuota r0) rest = ⟨[], [], true⟩ := by
        rw [hq]
        exact detailsLoop_flag_true rest
      have hmain : detailsLoop false ((b0, r0) :: rest) =
          ⟨[b0], batchResultDetails r0 ++ [], true⟩ := by
        simp only [detailsLoop, hrest]
      rw [hmain] at hlt ⊢
      cases i with
      | zero => exact ⟨rfl, rfl⟩
      | succ j => simp at hlt
    · have hqf : batchResultQuota r0 = false := by
        cases r0 with
        | quotaErr => exact absurd rfl hq
        | ok d => rfl
        | failed => rfl
      have hmain : detailsLoop false ((b0, r0) :: rest) =
          ⟨b0 :: (detailsLoop false rest).callsMade,
           batchResultDetails r0 ++ (detailsLoop false rest).details,
           (detailsLoop false rest).flag⟩ := by
        simp only [detailsLoop, hqf]
      rw [hmain] at hlt ⊢
      cases i with
      | zero =>
        simp only [List.getElem?_cons_zero, Option.some.injEq, Prod.mk.injEq] at hget
        rw [← hget.2] at hr
        exact absurd hr hq
      | succ j =>
        simp only [List.getElem?_cons_succ] at hget
        simp only [List.length_cons, Nat.succ_lt_succ_iff] at hlt
        obtain ⟨hl, hf⟩ := ih j b r hget hr hlt
        exact ⟨by simp [hl], hf⟩

/-- C1: the quota-exhaustion sentinel is monotonic and halts the remote
loops.  With the flag already set, the insert loop of
add_videos_to_playlist and the batch loop of _get_videos_details issue
no call at all and leave the flag set; and in a run starting with the
flag clear, an insert call whose outcome signals quota exhaustion is the
last insert call issued, a batch call whose outcome signals quota
exhaustion is the last batch call issued, and in both cases the flag is
set at the end of the loop (so it stays set for every later
operation, by the first two conjuncts). -/
theorem quota_sentinel_monotone_halt (o : String → CallResult) (l : List String)
    (entries : List (List String × BatchResult)) :
    (insertLoop o true l = ⟨[], [], true⟩) ∧
    (detailsLoop true entries = ⟨[], [], true⟩) ∧
    (∀ (i : Nat) (w : String),
      (insertLoop o false l).issued[i]? = some w → o w = .quotaExceeded →
      (insertLoop o false l).issued.length = i + 1 ∧
      (insertLoop o false l).flag = true) ∧
    (∀ (i : Nat) (b : List String) (r : BatchResult),
      entries[i]? = some (b, r) → r = .quotaErr →
      i < (detailsLoop false entries).callsMade.length →
      (detailsLoop false entries).callsMade.length = i + 1 ∧
      (detailsLoop false entries).flag = true) :=
  ⟨insertLoop_flag_true o l, detailsLoop_flag_true entries,
   insertLoop_quota_halts o l, detailsLoop_quota_halts entries⟩

/-- Insert oracle used by witnesses: the id q signals quota exhaustion,
every other insert succeeds. -/
def oracleQuota : String → CallResult :=
  fun v => if v = "q" then .quotaExceeded else .success

/-- C1 witness: on pending inserts a, q, b where q signals quota
exhaustion, the loop issues exactly the two calls a and q and ends with
the flag set; b is never attempted. -/
theorem quota_sentinel_monotone_halt_witness :
    (insertLoop oracleQuota false ["a", "q", "b"]).issued.length = 1 + 1 ∧
    (insertLoop oracleQuota false ["a", "q", "b"]).flag = true :=
  (quota_sentinel_monotone_halt oracleQuota ["a", "q", "b"] []).2.2.1 1 "q"
    (by decide) (by decide)

/-! ## C2: batched detail lookups -/

/-- Number of stride-50 batches of a list. -/
theorem chunks50_length (l : List String) :
    (chunks50 l).length = (l.length + 49) / 50 := by
  induction l using chunks50.induct with
  | case1 => simp [chunks50]
  | case2 x xs ih =>
    rw [chunks50]
    simp only [List.length_cons, List.length_take, List.length_drop] at ih ⊢
    rw [ih]
    omega

/-- A run of the batch loop in which every outcome is a success issues
one call per batch. -/
theorem detailsLoop_all_ok (entries : List (List String × BatchResult))
    (h : ∀ p ∈ entries, p.2 ≠ BatchResult.quotaErr) :
    (detailsLoop false entries).callsMade = entries.map Prod.fst := by
  induction entries with
  | nil => rfl
  | cons p rest ih =>
    obtain ⟨b, r⟩ := p
    have hr : batchResultQuota r = false := by
      have hne := h (b, r) (List.mem_cons_self _ _)
      cases r with
      | quotaErr => exact absurd rfl hne
      | ok d => rfl
      | failed => rfl
    have hmain : detailsLoop false ((b, r) :: rest) =
        ⟨b :: (detailsLoop false rest).callsMade,
         batchResultDetails r ++ (detailsLoop false rest).details,
         (detailsLoop false rest).flag⟩ := by
      simp only [detailsLoop, hr]
    rw [hmain]
    simp only [List.map_cons]
    rw [ih (fun p hp => h p (List.mem_cons_of_mem _ hp))]

/-- A nonempty input de-duplicates to a nonempty list. -/
theorem dedupFirst_nil_iff (l : List String) : dedupFirst l = [] ↔ l = [] := by
  cases l with
  | nil => simp [dedupFirst, dedupFirst.go]
  | cons x xs => simp [dedupFirst, dedupFirst.go]

/-- Call count of _get_videos_details in a run with only successful
batch outcomes. -/
theorem getVideosDetails_count_aux (ids : List String) (oracle : List BatchResult)
    (hlen : oracle.length = (chunks50 (dedupFirst ids)).length)
    (hok : ∀ r ∈ oracle, ∃ d, r = BatchResult.ok d) :
    (getVideosDetails false ids oracle).callsMade.length =
      ((dedupFirst ids).length + 49) / 50 := by
  by_cases hids : ids = []
  · subst hids
    simp [getVideosDetails, dedupFirst, dedupFirst.go]
  · rw [getVideosDetails, if_neg hids]
    have hzip : ∀ p ∈ (chunks50 (dedupFirst ids)).zip oracle,
        p.2 ≠ BatchResult.quotaErr := by
      intro p hp hqe
      obtain ⟨d, hd⟩ := hok p.2 (List.of_mem_zip hp).2
      rw [hd] at hqe
      cases hqe
    rw [detailsLoop_all_ok _ hzip, List.length_map, List.length_zip, hlen,
      Nat.min_self, chunks50_length]

/-- C2: in a run where the quota flag is clear and no batch call fails,
_get_videos_details issues exactly one videos.list call per batch of 50
unique ids, ceil(unique/50) calls in total; and inputs with the same
de-duplication (in particular, inputs differing only by duplicate ids)
produce exactly the same call count. -/
theorem getVideosDetails_call_count (ids : List String) (oracle : List BatchResult)
    (hlen : oracle.length = (chunks50 (dedupFirst ids)).length)
    (hok : ∀ r ∈ oracle, ∃ d, r = BatchResult.ok d) :
    (getVideosDetails false ids oracle).callsMade.length =
      ((dedupFirst ids).length + 49) / 50 ∧
    ∀ ids₂, dedupFirst ids₂ = dedupFirst ids →
      (getVideosDetails false ids₂ oracle).callsMade.length =
        (getVideosDetails false ids oracle).callsMade.length := by
  refine ⟨getVideosDetails_count_aux ids oracle hlen hok, ?_⟩
  intro ids₂ h2
  rw [getVideosDetails_count_aux ids oracle hlen hok,
    getVideosDetails_count_aux ids₂ oracle (by rw [h2]; exact hlen)
      hok, h2]

/-- C2 witness: the three-element input a, b, a de-duplicates to two
unique ids and is fetched with exactly one batch call. -/
theorem getVideosDetails_call_count_witness :
    (getVideosDetails false ["a", "b", "a"] [BatchResult.ok []]).callsMade.length = 1 :=
  ((getVideosDetails_call_count ["a", "b", "a"] [BatchResult.ok []]
      (by rw [chunks50_length]; decide)
      (fun r hr => by
        rw [List.mem_singleton.mp hr]
        exact ⟨[], rfl⟩)).1).trans (by decide)

/-! ## C3: dedup before insert -/

/-- C3: when the playlist already contains vX and the candidates are
vX then vY (with vY not yet present), the sync issues exactly one
insert call, for vY only, and reports vX as added and vY with the
outcome of its insert attempt. -/
theorem manager_sync_dedup_before_insert (o : String → CallResult)
    (existing : List String) (vX vY : Video)
    (hX : existing.contains vX.video_id = true)
    (hY : existing.contains vY.video_id = false) :
    managerAddVideosToPlaylist o false existing false [vX, vY] =
      ([(vX, true), (vY, insertResultAdded (o vY.video_id))], [vY.video_id]) := by
  have hne : vY.video_id ≠ vX.video_id := by
    intro h
    rw [h, hX] at hY
    cases hY
  have hXm : vX.video_id ∈ existing := by simpa using hX
  have hYm : vY.video_id ∉ existing := by simpa using hY
  have hbeq : (vY.video_id == vX.video_id) = false := beq_eq_false_iff_ne.mpr hne
  simp [managerAddVideosToPlaylist, addVideosToPlaylist, insertLoop,
    List.filter_cons, hXm, hYm, List.lookup, hne, hbeq]

/-- Insert oracle used by witnesses: every insert succeeds. -/
def oracleOk : String → CallResult := fun _ => .success

/-- Video values used by witnesses. -/
def videoA : Video := ⟨"x", "tx", "cA", "chanA", "", .missing, 100, none⟩

/-- Second video value used by witnesses. -/
def videoB : Video := ⟨"y", "ty", "cB", "chanB", "", .missing, 200, none⟩

/-- C3 witness: with x already in the playlist and candidates x then y,
only y is inserted and both are reported added. -/
theorem manager_sync_dedup_before_insert_witness :
    managerAddVideosToPlaylist oracleOk false ["x"] false [videoA, videoB] =
      ([(videoA, true), (videoB, true)], ["y"]) :=
  (manager_sync_dedup_before_insert oracleOk ["x"] videoA videoB
      (by decide) (by decide)).trans (by decide)

/-! ## C10: filter-statistics partition invariant -/

/-- Sum of the distinct rejection counters (the legacy not_whitelisted
duplicate excluded). -/
def rejectedSum (s : FilterStats) : Nat :=
  s.already_processed + s.too_short + s.too_long + s.outside_date_range +
    s.keyword_filtered_include + s.keyword_filtered_exclude +
    s.not_in_allowlist + s.in_blocklist + s.live_content_skipped

/-- The filter loop never touches the total counter. -/
theorem filterLoop_total (f : Video → Option RejectReason) (vs : List Video) :
    ∀ s, (filterLoop f vs s).2.total = s.total := by
  induction vs with
  | nil => intro s; rfl
  | cons v vs ih =>
    intro s
    cases h : f v with
    | none =>
      simp only [filterLoop, h]
      exact ih _
    | some r =>
      simp only [filterLoop, h]
      rw [ih]
      cases r <;> rfl

/-- Each processed video increments exactly one of passed_filters and
the distinct rejection counters. -/
theorem filterLoop_sum (f : Video → Option RejectReason) (vs : List Video) :
    ∀ s, (filterLoop f vs s).2.passed_filters + rejectedSum (filterLoop f vs s).2 =
      s.passed_filters + rejectedSum s + vs.length := by
  induction vs with
  | nil => intro s; simp [filterLoop]
  | cons v vs ih =>
    intro s
    cases h : f v with
    | none =>
      simp only [filterLoop, h]
      rw [ih]
      simp only [rejectedSum, List.length_cons]
      omega
    | some r =>
      simp only [filterLoop, h]
      rw [ih]
      cases r <;> simp only [rejectedSum, bumpReason, List.length_cons] <;> omega

/-- The legacy not_whitelisted counter moves in lockstep with
not_in_allowlist. -/
theorem filterLoop_legacy (f : Video → Option RejectReason) (vs : List Video) :
    ∀ s, (filterLoop f vs s).2.not_whitelisted + s.not_in_allowlist =
      (filterLoop f vs s).2.not_in_allowlist + s.not_whitelisted := by
  induction vs with
  | nil => intro s; simp [filterLoop]; omega
  | cons v vs ih =>
    intro s
    cases h : f v with
    | none =>
      simp only [filterLoop, h]
      have h2 := ih { s with passed_filters := s.passed_filters + 1 }
      simp only at h2
      omega
    | some r =>
      simp only [filterLoop, h]
      have h2 := ih (bumpReason s r)
      cases r <;> simp only [bumpReason] at h2 ⊢ <;> omega

/-- The loop returns exactly the in-order sublist of videos the
predicate accepts. -/
theorem filterLoop_list (f : Video → Option RejectReason) (vs : List Video) :
    ∀ s, (filterLoop f vs s).1 = vs.filter (fun v => (f v).isNone) := by
  induction vs with
  | nil => intro s; rfl
  | cons v vs ih =>
    intro s
    cases h : f v with
    | none => simp [filterLoop, h, List.filter_cons, ih]
    | some r => simp [filterLoop, h, List.filter_cons, ih]

/-- C10: after filter_videos, total equals the input length and equals
passed_filters plus the sum of the nine distinct rejection counters; the
legacy not_whitelisted counter duplicates not_in_allowlist; and the
returned list is exactly the in-order subsequence of the input accepted
by the per-video decision. -/
theorem filterVideos_stats_partition (cfg : FilterConfig) (cache : List String)
    (now : Int) (videos : List Video) (wl : Option (List String)) :
    (filterVideos cfg cache now videos wl).2.total = videos.length ∧
    (filterVideos cfg cache now videos wl).2.total =
      (filterVideos cfg cache now videos wl).2.passed_filters +
        ((filterVideos cfg cache now videos wl).2.already_processed +
         (filterVideos cfg cache now videos wl).2.too_short +
         (filterVideos cfg cache now videos wl).2.too_long +
         (filterVideos cfg cache now videos wl).2.outside_date_range +
         (filterVideos cfg cache now videos wl).2.keyword_filtered_include +
         (filterVideos cfg cache now videos wl).2.keyword_filtered_exclude +
         (filterVideos cfg cache now videos wl).2.not_in_allowlist +
         (filterVideos cfg cache now videos wl).2.in_blocklist +
         (filterVideos cfg cache now videos wl).2.live_content_skipped) ∧
    (filterVideos cfg cache now videos wl).2.not_whitelisted =
      (filterVideos cfg cache now videos wl).2.not_in_allowlist ∧
    (filterVideos cfg cache now videos wl).1 =
      videos.filter (fun v => (filterPred cfg cache now wl v).isNone) := by
  have htot : (filterVideos cfg cache now videos wl).2.total = videos.length :=
    filterLoop_total (filterPred cfg cache now wl) videos
      { initStats with total := videos.length }
  have hsum : (filterVideos cfg cache now videos wl).2.passed_filters +
      rejectedSum (filterVideos cfg cache now videos wl).2 =
      0 + 0 + videos.length :=
    filterLoop_sum (filterPred cfg cache now wl) videos
      { initStats with total := videos.length }
  have hleg : (filterVideos cfg cache now videos wl).2.not_whitelisted + 0 =
      (filterVideos cfg cache now videos wl).2.not_in_allowlist + 0 :=
    filterLoop_legacy (filterPred cfg cache now wl) videos
      { initStats with total := videos.length }
  have hlist : (filterVideos cfg cache now videos wl).1 =
      videos.filter (fun v => (filterPred cfg cache now wl v).isNone) :=
    filterLoop_list (filterPred cfg cache now wl) videos
      { initStats with total := videos.length }
  refine ⟨htot, ?_, by omega, hlist⟩
  simp only [rejectedSum] at hsum
  omega

end PlaylistFromSubs
